import Mathlib

/-!
Shallow embedding of the recurrent forecasting unit of
`scripts/train_models.py` (function `lstm_model`, lines 60-118).

Modelling decisions, all driven by the source:
* Scalars are modelled by `ℚ`.  The source works on IEEE-754 doubles; the
  claims under study are about data flow, control flow, fallback policy and
  which weights are updated, none of which depend on rounding, so an exact
  field is used.
* The source computes `1 / (1 + np.exp(-t))` and `np.tanh t` elementwise.
  The transcendental kernels `exp` and `tanh` are not rational, so they are
  carried as abstract functions in an `Env`; `sigmoid` is then defined by the
  same formula the source writes.
* `np.random.default_rng(0)` is a fixed seed, so the initial weight arrays
  are five fixed (but unknown to us) arrays of doubles; they are carried as
  an explicit `Weights` argument `w0`.
* `np` may be `None` (the import is wrapped in `try`); this capability bit is
  the explicit boolean argument `npAvailable`.
* Python `epochs` is an `int`; `range(epochs)` runs `max epochs 0` times, so
  `epochs : ℤ` and the loop count is `epochs.toNat`.
* Vectors are `List ℚ`; a gate weight array of shape
  `(input_size + hidden_size, hidden_size)` is a `List (List ℚ)` of its rows,
  so that `z @ W` is the sum of the rows scaled by the entries of `z`.
-/

namespace WindForecast

/-- Learning rate, the local constant `lr = 0.01` of `lstm_model` (line 101). -/
def lr : ℚ := 1 / 100

/-- Hidden dimension, the local constant `hidden_size = 8` of `lstm_model`
(line 81).  The input size is fixed at 1 (line 80). -/
def hidden_size : ℕ := 8

/-- Abstract numeric kernels: the source's `np.exp` and `np.tanh`. -/
structure Env where
  exp : ℚ → ℚ
  tanh : ℚ → ℚ

/-- Elementwise logistic function exactly as the source writes it:
`1 / (1 + np.exp (-t))` (lines 92, 93, 97). -/
def sigmoid (E : Env) (t : ℚ) : ℚ := 1 / (1 + E.exp (-t))

/-- The five weight arrays created at lines 84-89: four gate arrays of shape
`(input_size + hidden_size, hidden_size)`, stored as lists of rows, and the
output projection `Wy` of shape `(hidden_size, 1)`, stored as a vector. -/
structure Weights where
  Wf : List (List ℚ)
  Wi : List (List ℚ)
  Wc : List (List ℚ)
  Wo : List (List ℚ)
  Wy : List ℚ

/-- The zero vector `np.zeros n`. -/
def zeroVec (n : ℕ) : List ℚ := List.replicate n 0

/-- Elementwise vector addition. -/
def vecAdd (a b : List ℚ) : List ℚ := List.zipWith (fun x y => x + y) a b

/-- Elementwise vector subtraction (the in-place `Wy -= ...` of line 111). -/
def vecSub (a b : List ℚ) : List ℚ := List.zipWith (fun x y => x - y) a b

/-- Elementwise (Hadamard) product, numpy `*` on equal-shape vectors. -/
def hadamard (a b : List ℚ) : List ℚ := List.zipWith (fun x y => x * y) a b

/-- Scalar times vector. -/
def smul (c : ℚ) (v : List ℚ) : List ℚ := v.map (fun x => c * x)

/-- Dot product of two vectors; `h @ Wy` with `Wy` of shape `(n, 1)` read as a
vector, followed by the `[0]` projection of lines 107 and 118. -/
def dot (a b : List ℚ) : ℚ := (hadamard a b).sum

/-- Vector-matrix product `z @ W`: the sum of the rows of `W` scaled by the
entries of `z`; `n` is the row length (the hidden dimension). -/
def matvec (n : ℕ) (z : List ℚ) (W : List (List ℚ)) : List ℚ :=
  (List.zipWith smul z W).foldl vecAdd (zeroVec n)

/-- The gate step, lines 91-99 of the source:
`z = np.concatenate([x_t, h_prev])`, then the four gates and the two new
state vectors, returning `(h, c)`. -/
def step (n : ℕ) (E : Env) (w : Weights) (x : ℚ) (h_prev c_prev : List ℚ) :
    List ℚ × List ℚ :=
  let z := x :: h_prev
  let f := (matvec n z w.Wf).map (sigmoid E)
  let i := (matvec n z w.Wi).map (sigmoid E)
  let c_hat := (matvec n z w.Wc).map E.tanh
  let c := vecAdd (hadamard f c_prev) (hadamard i c_hat)
  let o := (matvec n z w.Wo).map (sigmoid E)
  let h := hadamard o (c.map E.tanh)
  (h, c)

/-- Forward fold over one window: `h = np.zeros(hidden_size)`,
`c = np.zeros(hidden_size)`, then `h, c = step(...)` per element in order
(lines 103-106 and 114-117). -/
def foldWindow (n : ℕ) (E : Env) (w : Weights) (seq : List ℚ) :
    List ℚ × List ℚ :=
  seq.foldl (fun hc x => step n E w x hc.1 hc.2) (zeroVec n, zeroVec n)

/-- Projection of a folded window: `float((h @ Wy)[0])` (line 118). -/
def predict (n : ℕ) (E : Env) (w : Weights) (window : List ℚ) : ℚ :=
  dot (foldWindow n E w window).1 w.Wy

/-- One training example, lines 103-111: fold the window from zero state,
`y_pred = h @ Wy`, `error = y_pred[0] - target`,
`Wy -= lr * error * h.reshape(-1, 1)`.  Only the `Wy` field changes. -/
def updateExample (n : ℕ) (E : Env) (w : Weights) (ex : List ℚ × ℚ) : Weights :=
  let h := (foldWindow n E w ex.1).1
  let y_pred := dot h w.Wy
  let error := y_pred - ex.2
  ⟨w.Wf, w.Wi, w.Wc, w.Wo, vecSub w.Wy (smul (lr * error) h)⟩

/-- The inner loop of line 102: one pass over `zip(X, y)` in order. -/
def trainEpoch (n : ℕ) (E : Env) (exs : List (List ℚ × ℚ)) (w : Weights) :
    Weights :=
  exs.foldl (updateExample n E) w

/-- The outer loop of line 102: `for _ in range(epochs)`, which runs
`epochs.toNat` times (zero times for a non-positive Python int). -/
def trainLoop (n : ℕ) (E : Env) (exs : List (List ℚ × ℚ)) (epochs : ℤ)
    (w : Weights) : Weights :=
  (trainEpoch n E exs)^[epochs.toNat] w

/-- Training examples, lines 72-78: for `i in range(len(series) - lookback)`,
`X` gets `series[i : i + lookback]` and `y` gets `series[i + lookback]`;
`zip(X, y)` pairs them in construction order. -/
def makeExamples (series : List ℚ) (lookback : ℕ) : List (List ℚ × ℚ) :=
  (List.range (series.length - lookback)).map
    (fun i => ((series.drop i).take lookback, series.getD (i + lookback) 0))

/-- The naive fallback of line 69: `series[-1] if series else 0.0`. -/
def fallback (series : List ℚ) : ℚ := series.getLast?.getD 0

/-- The slice `series[-lookback:]` of line 116 under Python semantics: for
`lookback = 0` the start index `-0` is `0` and the whole series is taken;
for `lookback > 0` the start clamps to `max 0 (len - lookback)`, which is the
`List.drop` of the truncated subtraction. -/
def lastWindow (series : List ℚ) (lookback : ℕ) : List ℚ :=
  if lookback = 0 then series else series.drop (series.length - lookback)

/-- The whole of `lstm_model` (lines 60-118): the guard of line 68 returns the
fallback when `np` is missing or `len(series) < lookback + 1`; otherwise the
examples are built once, the training loops run, and the fold of the final
`lookback` values is projected through the trained `Wy`. -/
def lstm_model (E : Env) (w0 : Weights) (npAvailable : Bool) (series : List ℚ)
    (epochs : ℤ) (lookback : ℕ) : ℚ :=
  if npAvailable = false ∨ series.length < lookback + 1 then
    fallback series
  else
    predict hidden_size E
      (trainLoop hidden_size E (makeExamples series lookback) epochs w0)
      (lastWindow series lookback)

/-- Two successive forecasts with the same inputs, to state call isolation. -/
def forecastTwice (E : Env) (w0 : Weights) (npAvailable : Bool)
    (series : List ℚ) (epochs : ℤ) (lookback : ℕ) : ℚ × ℚ :=
  (lstm_model E w0 npAvailable series epochs lookback,
   lstm_model E w0 npAvailable series epochs lookback)

/-- The options a caller of `lstm_model` can supply, with their default
values, read off the signature `def lstm_model(series, epochs=10,
lookback=24)` at line 60 of the source. -/
def lstmCallerOptions : List (String × ℚ) := [("epochs", 10), ("lookback", 24)]

/-- Modelled from the spec: the four configuration options the spec's
interface section says are caller-supplied at training time, with the
defaults it gives them. -/
def specConfigOptions : List (String × ℚ) :=
  [("lookback", 24), ("epochs", 10), ("learning_rate", 1 / 100),
   ("hidden_size", 8)]

/-- A concrete environment for closed evaluations: `exp` constantly `0`
(so `sigmoid` is constantly `1`) and `tanh` constantly `0`. -/
def E0 : Env := ⟨fun _ => 0, fun _ => 0⟩

/-- A concrete environment with `exp` constantly `0` and `tanh` the
identity. -/
def E1 : Env := ⟨fun _ => 0, fun t => t⟩

/-- All-zero weights of the source's shapes (9 rows of 8, and an 8-vector). -/
def zeroWeights : Weights :=
  ⟨List.replicate 9 (zeroVec 8), List.replicate 9 (zeroVec 8),
   List.replicate 9 (zeroVec 8), List.replicate 9 (zeroVec 8), zeroVec 8⟩

/-- The all-ones vector. -/
def onesVec (n : ℕ) : List ℚ := List.replicate n 1

/-- Weights whose candidate gate array and output projection are all ones and
whose other gate arrays are zero, of the source's shapes. -/
def wOnesC : Weights :=
  ⟨List.replicate 9 (zeroVec 8), List.replicate 9 (zeroVec 8),
   List.replicate 9 (onesVec 8), List.replicate 9 (zeroVec 8), onesVec 8⟩

/-! Evaluation toolkit: pointwise operations on constant (replicate) vectors. -/

theorem zipWith_replicate_same (f : ℚ → ℚ → ℚ) (n : ℕ) (a b : ℚ) :
    List.zipWith f (List.replicate n a) (List.replicate n b) =
      List.replicate n (f a b) := by
  induction n with
  | zero => rfl
  | succ k ih => simp [List.replicate_succ, ih]

theorem vecAdd_replicate (n : ℕ) (a b : ℚ) :
    vecAdd (List.replicate n a) (List.replicate n b) = List.replicate n (a + b) :=
  zipWith_replicate_same _ n a b

theorem vecSub_replicate (n : ℕ) (a b : ℚ) :
    vecSub (List.replicate n a) (List.replicate n b) = List.replicate n (a - b) :=
  zipWith_replicate_same _ n a b

theorem hadamard_replicate (n : ℕ) (a b : ℚ) :
    hadamard (List.replicate n a) (List.replicate n b) = List.replicate n (a * b) :=
  zipWith_replicate_same _ n a b

theorem smul_replicate (c : ℚ) (n : ℕ) (a : ℚ) :
    smul c (List.replicate n a) = List.replicate n (c * a) := by
  simp [smul, List.map_replicate]

theorem dot_replicate (n : ℕ) (a b : ℚ) :
    dot (List.replicate n a) (List.replicate n b) = (n : ℚ) * (a * b) := by
  simp [dot, hadamard_replicate, List.sum_replicate, nsmul_eq_mul]

theorem foldl_vecAdd_replicate (n : ℕ) (a : ℚ) :
    ∀ (l : List ℚ) (s : ℚ),
      (l.map (fun zk => List.replicate n (zk * a))).foldl vecAdd
          (List.replicate n s) =
        List.replicate n (s + l.sum * a) := by
  intro l
  induction l with
  | nil => intro s; simp
  | cons x t ih =>
      intro s
      simp only [List.map_cons, List.foldl_cons, vecAdd_replicate, ih,
        List.sum_cons]
      ring_nf

theorem matvec_replicate_rows (n m : ℕ) (z : List ℚ) (a : ℚ)
    (h : z.length = m) :
    matvec n z (List.replicate m (List.replicate n a)) =
      List.replicate n (z.sum * a) := by
  have key : List.zipWith smul z (List.replicate m (List.replicate n a)) =
      z.map (fun zk => List.replicate n (zk * a)) := by
    subst h
    induction z with
    | nil => rfl
    | cons x t ih =>
        simp [List.replicate_succ, List.zipWith_cons_cons, smul_replicate, ih]
  rw [matvec, key, zeroVec, foldl_vecAdd_replicate, zero_add]

theorem sigmoid_E0 (t : ℚ) : sigmoid E0 t = 1 := by
  simp [sigmoid, E0]

theorem sigmoid_E1 (t : ℚ) : sigmoid E1 t = 1 := by
  simp [sigmoid, E1]

theorem tanh_E0 (t : ℚ) : E0.tanh t = 0 := rfl

theorem tanh_E1 (t : ℚ) : E1.tanh t = t := rfl

theorem sum_cons_replicate (x a : ℚ) (n : ℕ) :
    (x :: List.replicate n a).sum = x + (n : ℚ) * a := by
  simp [List.sum_cons, List.sum_replicate, nsmul_eq_mul]

/-- One gate step of the concrete environment `E0` with any weights whose four
gate arrays are all zero, on constant state vectors. -/
theorem step_E0_zero_gates (Wy : List ℚ) (x hv cv : ℚ) :
    step 8 E0
        ⟨List.replicate 9 (zeroVec 8), List.replicate 9 (zeroVec 8),
         List.replicate 9 (zeroVec 8), List.replicate 9 (zeroVec 8), Wy⟩
        x (List.replicate 8 hv) (List.replicate 8 cv) =
      (List.replicate 8 0, List.replicate 8 cv) := by
  have hz : (x :: List.replicate 8 hv).length = 9 := by simp
  simp only [step, zeroVec, matvec_replicate_rows 8 9 _ _ hz, mul_zero,
    List.map_replicate, sigmoid_E0, tanh_E0, hadamard_replicate,
    vecAdd_replicate, one_mul, mul_one]
  norm_num

/-- One gate step of the concrete environment `E1` with any weights whose
forget, input and output gate arrays are zero and whose candidate array is
all ones, on constant state vectors. -/
theorem step_E1_onesC (Wy : List ℚ) (x hv cv : ℚ) :
    step 8 E1
        ⟨List.replicate 9 (zeroVec 8), List.replicate 9 (zeroVec 8),
         List.replicate 9 (onesVec 8), List.replicate 9 (zeroVec 8), Wy⟩
        x (List.replicate 8 hv) (List.replicate 8 cv) =
      (List.replicate 8 (cv + (x + 8 * hv)),
       List.replicate 8 (cv + (x + 8 * hv))) := by
  have hz : (x :: List.replicate 8 hv).length = 9 := by simp
  simp only [step, zeroVec, onesVec, matvec_replicate_rows 8 9 _ _ hz,
    mul_zero, mul_one, List.map_replicate, sigmoid_E1, tanh_E1,
    sum_cons_replicate, hadamard_replicate, vecAdd_replicate, one_mul]
  norm_num

/-! Closed-form evaluations used by counterexamples and observability facts. -/

theorem foldWindow_E0_zw_five :
    foldWindow 8 E0 zeroWeights [5] = (List.replicate 8 0, List.replicate 8 0) := by
  have h := step_E0_zero_gates (zeroVec 8) 5 0 0
  exact h

theorem predict_E0_zw_five : predict hidden_size E0 zeroWeights [5] = 0 := by
  unfold predict hidden_size
  rw [foldWindow_E0_zw_five]
  show dot (List.replicate 8 0) (List.replicate 8 0) = 0
  rw [dot_replicate]
  norm_num

theorem trainLoop_nil (n : ℕ) (E : Env) (epochs : ℤ) (w : Weights) :
    trainLoop n E [] epochs w = w := by
  unfold trainLoop
  rw [show trainEpoch n E [] = id from rfl, Function.iterate_id]
  rfl

theorem foldWindow_E1_w1_two :
    foldWindow 8 E1 wOnesC [2] = (List.replicate 8 2, List.replicate 8 2) := by
  have h := step_E1_onesC (onesVec 8) 2 0 0
  norm_num at h
  exact h

theorem foldWindow_E1_w1_one :
    foldWindow 8 E1 wOnesC [1] = (List.replicate 8 1, List.replicate 8 1) := by
  have h := step_E1_onesC (onesVec 8) 1 0 0
  norm_num at h
  exact h

theorem eval_E1_lb1_ep0 : lstm_model E1 wOnesC true [1, 2] 0 1 = 16 := by
  unfold lstm_model
  rw [if_neg (by simp)]
  show dot (foldWindow 8 E1 wOnesC [2]).1 wOnesC.Wy = 16
  rw [foldWindow_E1_w1_two]
  show dot (List.replicate 8 2) (List.replicate 8 1) = 16
  rw [dot_replicate]
  norm_num

theorem eval_E1_lb2_ep0 : lstm_model E1 wOnesC true [1, 2] 0 2 = 2 := by
  unfold lstm_model
  rw [if_pos (Or.inr (by norm_num))]
  rfl

theorem updateExample_E1_w1 :
    updateExample 8 E1 wOnesC ([1], 2) =
      ⟨List.replicate 9 (zeroVec 8), List.replicate 9 (zeroVec 8),
       List.replicate 9 (onesVec 8), List.replicate 9 (zeroVec 8),
       List.replicate 8 (47 / 50)⟩ := by
  show (⟨wOnesC.Wf, wOnesC.Wi, wOnesC.Wc, wOnesC.Wo,
      vecSub wOnesC.Wy
        (smul (lr * (dot (foldWindow 8 E1 wOnesC [1]).1 wOnesC.Wy - 2))
          (foldWindow 8 E1 wOnesC [1]).1)⟩ : Weights) = _
  rw [foldWindow_E1_w1_one]
  show (⟨List.replicate 9 (zeroVec 8), List.replicate 9 (zeroVec 8),
      List.replicate 9 (onesVec 8), List.replicate 9 (zeroVec 8),
      vecSub (List.replicate 8 1)
        (smul (lr * (dot (List.replicate 8 1) (List.replicate 8 1) - 2))
          (List.replicate 8 1))⟩ : Weights) = _
  rw [dot_replicate, smul_replicate, vecSub_replicate]
  norm_num [lr, Weights.mk.injEq]

theorem foldWindow_E1_w2_two :
    foldWindow 8 E1
        ⟨List.replicate 9 (zeroVec 8), List.replicate 9 (zeroVec 8),
         List.replicate 9 (onesVec 8), List.replicate 9 (zeroVec 8),
         List.replicate 8 (47 / 50)⟩ [2] =
      (List.replicate 8 2, List.replicate 8 2) := by
  have h := step_E1_onesC (List.replicate 8 (47 / 50)) 2 0 0
  norm_num at h
  exact h

theorem eval_E1_lb1_ep1 : lstm_model E1 wOnesC true [1, 2] 1 1 = 376 / 25 := by
  unfold lstm_model
  rw [if_neg (by simp)]
  show dot
      (foldWindow 8 E1 (updateExample 8 E1 wOnesC ([1], 2)) [2]).1
      (updateExample 8 E1 wOnesC ([1], 2)).Wy = 376 / 25
  rw [updateExample_E1_w1, foldWindow_E1_w2_two]
  show dot (List.replicate 8 2) (List.replicate 8 (47 / 50)) = 376 / 25
  rw [dot_replicate]
  norm_num

/-! Frame helpers: the training loop leaves the gate arrays untouched. -/

theorem trainEpoch_gate (n : ℕ) (E : Env) (p : Weights → List (List ℚ))
    (hp : ∀ w ex, p (updateExample n E w ex) = p w) :
    ∀ (exs : List (List ℚ × ℚ)) (w : Weights), p (trainEpoch n E exs w) = p w := by
  intro exs
  induction exs with
  | nil => intro w; rfl
  | cons e t ih =>
      intro w
      have h : trainEpoch n E (e :: t) w =
          trainEpoch n E t (updateExample n E w e) := rfl
      rw [h, ih, hp]

theorem trainLoop_gate (n : ℕ) (E : Env) (p : Weights → List (List ℚ))
    (hp : ∀ w ex, p (updateExample n E w ex) = p w)
    (exs : List (List ℚ × ℚ)) (epochs : ℤ) :
    ∀ w : Weights, p (trainLoop n E exs epochs w) = p w := by
  unfold trainLoop
  generalize epochs.toNat = k
  induction k with
  | zero => intro w; rfl
  | succ k ih =>
      intro w
      rw [Function.iterate_succ_apply, ih, trainEpoch_gate n E p hp]

/-! The claims. -/

/-- Claim C1, counterexample at the boundary: with numpy available,
`series = [5]` and `lookback = 1` (so `len(series) = lookback`),
`lstm_model` returns the fallback `5` (the last element), while the
projection `h · Wy` of the fold over the final `lookback` values is `0`;
the claim asserts the fold branch is taken there. -/
theorem lstm_boundary_counterexample :
    lstm_model E0 zeroWeights true [5] 10 1 = 5 ∧
    predict hidden_size E0
      (trainLoop hidden_size E0 (makeExamples [5] 1) 10 zeroWeights)
      (lastWindow [5] 1) = 0 ∧
    (5 : ℚ) ≠ 0 := by
  refine ⟨?_, ?_, by norm_num⟩
  · unfold lstm_model
    rw [if_pos (Or.inr (by norm_num))]
    rfl
  · rw [show makeExamples [5] 1 = [] from rfl, trainLoop_nil,
      show lastWindow [5] 1 = [5] from rfl]
    exact predict_E0_zw_five

/-- Claim C1 (amended): when numpy is available and
`len(series) ≥ lookback + 1`, `lstm_model` returns the scalar `h · Wy`
obtained by folding the final `lookback` values with a fresh zero
hidden/cell state under the trained weights; at the boundary
`len(series) = lookback` the fallback (last element) is returned instead. -/
theorem lstm_full_branch_requires_succ (E : Env) (w0 : Weights)
    (series : List ℚ) (epochs : ℤ) (lookback : ℕ) :
    (lookback + 1 ≤ series.length →
      lstm_model E w0 true series epochs lookback =
        dot ((lastWindow series lookback).foldl
              (fun hc x => step hidden_size E
                (trainLoop hidden_size E (makeExamples series lookback) epochs w0)
                x hc.1 hc.2)
              (zeroVec hidden_size, zeroVec hidden_size)).1
          (trainLoop hidden_size E (makeExamples series lookback) epochs w0).Wy) ∧
    (series.length = lookback →
      lstm_model E w0 true series epochs lookback = fallback series) := by
  constructor
  · intro h
    have hg : ¬((true : Bool) = false ∨ series.length < lookback + 1) := by
      rintro (hb | hl)
      · exact Bool.noConfusion hb
      · omega
    unfold lstm_model
    rw [if_neg hg]
    rfl
  · intro h
    unfold lstm_model
    rw [if_pos (Or.inr (by omega))]

/-- Witness for the amended C1 at concrete inputs. -/
theorem lstm_full_branch_requires_succ_witness :
    lstm_model E0 zeroWeights true [1, 2] 0 1 =
      dot ((lastWindow [1, 2] 1).foldl
            (fun hc x => step hidden_size E0
              (trainLoop hidden_size E0 (makeExamples [1, 2] 1) 0 zeroWeights)
              x hc.1 hc.2)
            (zeroVec hidden_size, zeroVec hidden_size)).1
        (trainLoop hidden_size E0 (makeExamples [1, 2] 1) 0 zeroWeights).Wy ∧
    lstm_model E0 zeroWeights true [5] 0 1 = fallback [5] :=
  ⟨(lstm_full_branch_requires_succ E0 zeroWeights [1, 2] 0 1).1 (by norm_num),
   (lstm_full_branch_requires_succ E0 zeroWeights [5] 0 1).2 (by norm_num)⟩

/-- Claim C2, counterexample: the spec lists `hidden_size` and
`learning_rate` among the caller-supplied options, but the source's
signature accepts only `epochs` and `lookback`. -/
theorem caller_options_counterexample :
    ("hidden_size", (8 : ℚ)) ∈ specConfigOptions ∧
    "hidden_size" ∉ lstmCallerOptions.map Prod.fst ∧
    "learning_rate" ∉ lstmCallerOptions.map Prod.fst := by
  refine ⟨by simp [specConfigOptions], by simp [lstmCallerOptions],
    by simp [lstmCallerOptions]⟩

/-- Claim C2 (amended): the unit recognizes exactly two caller-supplied
options, `epochs` (default 10) and `lookback` (default 24), both observable
in the output; `hidden_size = 8` and `learning_rate = 0.01` are fixed
internal constants the caller cannot supply. -/
theorem caller_options_amended :
    lstmCallerOptions.map Prod.fst = ["epochs", "lookback"] ∧
    lr = 1 / 100 ∧ hidden_size = 8 ∧
    lstm_model E1 wOnesC true [1, 2] 0 1 = 16 ∧
    lstm_model E1 wOnesC true [1, 2] 0 2 = 2 ∧
    lstm_model E1 wOnesC true [1, 2] 1 1 = 376 / 25 ∧
    (16 : ℚ) ≠ 2 ∧ (16 : ℚ) ≠ 376 / 25 :=
  ⟨rfl, rfl, rfl, eval_E1_lb1_ep0, eval_E1_lb2_ep0, eval_E1_lb1_ep1,
   by norm_num, by norm_num⟩

/-- Claim C3: for every series, epochs and lookback, training changes only
the output projection `Wy`; the four gate arrays `Wf, Wi, Wc, Wo` are
exactly equal before and after the training loop. -/
theorem train_gates_unchanged (E : Env) (series : List ℚ) (epochs : ℤ)
    (lookback : ℕ) (w : Weights) :
    (trainLoop hidden_size E (makeExamples series lookback) epochs w).Wf = w.Wf ∧
    (trainLoop hidden_size E (makeExamples series lookback) epochs w).Wi = w.Wi ∧
    (trainLoop hidden_size E (makeExamples series lookback) epochs w).Wc = w.Wc ∧
    (trainLoop hidden_size E (makeExamples series lookback) epochs w).Wo = w.Wo :=
  ⟨trainLoop_gate hidden_size E (fun u => u.Wf) (fun _ _ => rfl) _ epochs w,
   trainLoop_gate hidden_size E (fun u => u.Wi) (fun _ _ => rfl) _ epochs w,
   trainLoop_gate hidden_size E (fun u => u.Wc) (fun _ _ => rfl) _ epochs w,
   trainLoop_gate hidden_size E (fun u => u.Wo) (fun _ _ => rfl) _ epochs w⟩

/-- Claim C4: whenever `len(series) < lookback`, or numpy is unavailable,
`lstm_model` returns the last element of the series if non-empty and `0.0`
if empty — the fallback policy, with no exception surfaced. -/
theorem short_or_no_numpy_fallback (E : Env) (w0 : Weights) (npA : Bool)
    (series : List ℚ) (epochs : ℤ) (lookback : ℕ)
    (h : series.length < lookback ∨ npA = false) :
    lstm_model E w0 npA series epochs lookback = series.getLast?.getD 0 := by
  unfold lstm_model
  rw [if_pos]
  · rfl
  · rcases h with h | h
    · exact Or.inr (by omega)
    · exact Or.inl h

/-- Witness for C4: a 2-element series with `lookback = 24` yields its last
element `7`, and so does any call with numpy unavailable. -/
theorem short_or_no_numpy_fallback_witness :
    lstm_model E0 zeroWeights true [5, 7] 10 24 = 7 ∧
    lstm_model E0 zeroWeights false [5, 7] 10 1 = 7 := by
  constructor
  · rw [short_or_no_numpy_fallback E0 zeroWeights true [5, 7] 10 24
      (Or.inl (by norm_num))]
    rfl
  · rw [short_or_no_numpy_fallback E0 zeroWeights false [5, 7] 10 1
      (Or.inr rfl)]
    rfl

/-- Claim C5: when numpy is available and `len(series) ≥ lookback + 1`,
training runs exactly `epochs` outer iterations of one in-order pass over
the example list built once from the series; each example folds its window
from zero state to `h`, forms `error = h · Wy − target`, and updates only
`Wy ← Wy − lr · error · h` with `lr = 0.01`. -/
theorem training_loop_structure (E : Env) (w0 : Weights) (series : List ℚ)
    (epochs : ℤ) (lookback : ℕ) (h : lookback + 1 ≤ series.length)
    (hep : 0 ≤ epochs) :
    lstm_model E w0 true series epochs lookback =
      predict hidden_size E
        ((fun w => (makeExamples series lookback).foldl
            (updateExample hidden_size E) w)^[epochs.toNat] w0)
        (lastWindow series lookback) ∧
    ((epochs.toNat : ℤ) = epochs) ∧
    (∀ (w : Weights) (seq : List ℚ) (target : ℚ),
      updateExample hidden_size E w (seq, target) =
        ⟨w.Wf, w.Wi, w.Wc, w.Wo,
         vecSub w.Wy
           (smul (lr *
               (dot (seq.foldl
                   (fun hc x => step hidden_size E w x hc.1 hc.2)
                   (zeroVec hidden_size, zeroVec hidden_size)).1 w.Wy - target))
             (seq.foldl (fun hc x => step hidden_size E w x hc.1 hc.2)
               (zeroVec hidden_size, zeroVec hidden_size)).1)⟩) ∧
    lr = 1 / 100 := by
  refine ⟨?_, Int.toNat_of_nonneg hep, fun w seq target => rfl, rfl⟩
  have hg : ¬((true : Bool) = false ∨ series.length < lookback + 1) := by
    rintro (hb | hl)
    · exact Bool.noConfusion hb
    · omega
  unfold lstm_model
  rw [if_neg hg]
  rfl

/-- Witness for C5 at concrete inputs. -/
theorem training_loop_structure_witness :
    lstm_model E0 zeroWeights true [1, 2] 0 1 =
      predict hidden_size E0
        ((fun w => (makeExamples [1, 2] 1).foldl
            (updateExample hidden_size E0) w)^[(0 : ℤ).toNat] zeroWeights)
        (lastWindow [1, 2] 1) ∧
    (((0 : ℤ).toNat : ℤ) = 0) :=
  ⟨(training_loop_structure E0 zeroWeights [1, 2] 0 1 (by norm_num)
      (by norm_num)).1,
   (training_loop_structure E0 zeroWeights [1, 2] 0 1 (by norm_num)
      (by norm_num)).2.1⟩

/-- Claim C6: the single-cell gate step computes
`z = concat([x_t], h_prev)`, `f = sigmoid(z · Wf)`, `i = sigmoid(z · Wi)`,
`c_hat = tanh(z · Wc)`, `c = f ⊙ c_prev + i ⊙ c_hat`, `o = sigmoid(z · Wo)`,
`h = o ⊙ tanh(c)`, returning `(h, c)`; this step is the one folded over every
window element in order by the training fold and the inference fold, and
`sigmoid` is `1 / (1 + exp(−t))`. -/
theorem step_gate_equations (n : ℕ) (E : Env) (w : Weights) (x : ℚ)
    (h_prev c_prev : List ℚ) :
    step n E w x h_prev c_prev =
      (hadamard ((matvec n (x :: h_prev) w.Wo).map (sigmoid E))
        ((vecAdd
            (hadamard ((matvec n (x :: h_prev) w.Wf).map (sigmoid E)) c_prev)
            (hadamard ((matvec n (x :: h_prev) w.Wi).map (sigmoid E))
              ((matvec n (x :: h_prev) w.Wc).map E.tanh))).map E.tanh),
       vecAdd
         (hadamard ((matvec n (x :: h_prev) w.Wf).map (sigmoid E)) c_prev)
         (hadamard ((matvec n (x :: h_prev) w.Wi).map (sigmoid E))
           ((matvec n (x :: h_prev) w.Wc).map E.tanh))) ∧
    (∀ seq : List ℚ, foldWindow n E w seq =
      seq.foldl (fun hc v => step n E w v hc.1 hc.2) (zeroVec n, zeroVec n)) ∧
    (∀ window : List ℚ, predict n E w window =
      dot (foldWindow n E w window).1 w.Wy) ∧
    (∀ ex : List ℚ × ℚ, (updateExample n E w ex).Wy =
      vecSub w.Wy (smul (lr * (dot (foldWindow n E w ex.1).1 w.Wy - ex.2))
        (foldWindow n E w ex.1).1)) ∧
    (∀ t : ℚ, sigmoid E t = 1 / (1 + E.exp (-t))) :=
  ⟨rfl, fun _ => rfl, fun _ => rfl, fun _ => rfl, fun _ => rfl⟩

/-- Claim C7: the training examples are exactly the pairs
`(series[i : i+lookback], series[i+lookback])` for
`i` in `range(len(series) − lookback)`; every constructed window has length
exactly `lookback`. -/
theorem makeExamples_windows (series : List ℚ) (lookback : ℕ) :
    (makeExamples series lookback).length = series.length - lookback ∧
    (∀ i, i < series.length - lookback →
      (makeExamples series lookback).getD i ([], 0) =
        ((series.drop i).take lookback, series.getD (i + lookback) 0)) ∧
    (∀ ex ∈ makeExamples series lookback, ex.1.length = lookback) := by
  refine ⟨by simp [makeExamples], ?_, ?_⟩
  · intro i hi
    simp [makeExamples, List.getD_eq_getElem?_getD, List.getElem?_map,
      List.getElem?_range, hi]
  · intro ex hex
    simp only [makeExamples, List.mem_map, List.mem_range] at hex
    obtain ⟨i, hi, rfl⟩ := hex
    simp only [List.length_take, List.length_drop]
    omega

/-- Witness for C7 on a concrete series. -/
theorem makeExamples_windows_witness :
    (makeExamples [1, 2, 3] 1).length = 2 ∧
    (makeExamples [1, 2, 3] 1).getD 0 ([], 0) = ([1], 2) := by
  have h := makeExamples_windows [1, 2, 3] 1
  exact ⟨h.1, h.2.1 0 (by norm_num)⟩

/-- Claim C8: the unit is deterministic — for a fixed environment, seeded
initial weights, series, epochs and lookback, two successive
train-then-forecast runs return identical scalars (no state leaks between
calls, since all state is local to the call). -/
theorem forecast_deterministic (E : Env) (w0 : Weights) (npA : Bool)
    (series : List ℚ) (epochs : ℤ) (lookback : ℕ) :
    (forecastTwice E w0 npA series epochs lookback).1 =
      (forecastTwice E w0 npA series epochs lookback).2 := rfl

/-- Claim C9: on every input the unit terminates with one of exactly two
outcomes — the fallback scalar (last element or `0.0`) or the computed
projection of the trained fold. -/
theorem lstm_two_outcomes (E : Env) (w0 : Weights) (npA : Bool)
    (series : List ℚ) (epochs : ℤ) (lookback : ℕ) :
    lstm_model E w0 npA series epochs lookback = fallback series ∨
    lstm_model E w0 npA series epochs lookback =
      predict hidden_size E
        (trainLoop hidden_size E (makeExamples series lookback) epochs w0)
        (lastWindow series lookback) := by
  unfold lstm_model
  by_cases h : npA = false ∨ series.length < lookback + 1
  · exact Or.inl (by rw [if_pos h])
  · exact Or.inr (by rw [if_neg h])

/-- Claim C10: for non-positive `epochs` the training loop never runs, so the
weights are unchanged and, when the full branch is taken, `lstm_model`
returns the projection of the final window under the initial weights. -/
theorem epochs_nonpos_no_update (E : Env) (w0 : Weights) (series : List ℚ)
    (epochs : ℤ) (lookback : ℕ) (hep : epochs ≤ 0)
    (h : lookback + 1 ≤ series.length) :
    trainLoop hidden_size E (makeExamples series lookback) epochs w0 = w0 ∧
    lstm_model E w0 true series epochs lookback =
      predict hidden_size E w0 (lastWindow series lookback) := by
  have h0 : epochs.toNat = 0 := Int.toNat_of_nonpos hep
  have hT : trainLoop hidden_size E (makeExamples series lookback) epochs w0
      = w0 := by
    unfold trainLoop
    rw [h0]
    rfl
  refine ⟨hT, ?_⟩
  have hg : ¬((true : Bool) = false ∨ series.length < lookback + 1) := by
    rintro (hb | hl)
    · exact Bool.noConfusion hb
    · omega
  unfold lstm_model
  rw [if_neg hg, hT]

/-- Witness for C10 with a negative epoch count. -/
theorem epochs_nonpos_no_update_witness :
    trainLoop hidden_size E0 (makeExamples [1, 2] 1) (-3) zeroWeights =
      zeroWeights ∧
    lstm_model E0 zeroWeights true [1, 2] (-3) 1 =
      predict hidden_size E0 zeroWeights (lastWindow [1, 2] 1) :=
  epochs_nonpos_no_update E0 zeroWeights [1, 2] (-3) 1 (by norm_num)
    (by norm_num)

end WindForecast
